import Mathlib

/-!
Verification of the multi-tier TTL cache manager (CacheManager, backend/utils/cache.js).
The manager routes namespace-qualified get/set/delete operations to one bounded
expiring map per namespace and keeps per-namespace hit statistics.  The bounded
expiring-map primitive is provided by an external library whose sources are not
part of the repository; it is modelled here from the specification.  All
CacheManager-level operations are translated directly from the source file.
-/

set_option autoImplicit false

/-- JS values as they can be stored in and returned from the cache.  The
distinguished `vUndefined` constructor models the JS value `undefined`, which the
manager uses as its absence test, and `vNull` models `null`, the miss sentinel
returned to callers. -/
inductive JSValue where
  | vNull
  | vUndefined
  | vBool (b : Bool)
  | vNum (n : Int)
  | vStr (s : String)
deriving DecidableEq, Repr

/-- JS truthiness of a value, as used by the `||` operator. -/
def JSValue.truthy : JSValue → Bool
  | .vNull => false
  | .vUndefined => false
  | .vBool b => b
  | .vNum n => n != 0
  | .vStr s => s != ""

/-- JS `a || b`: the left operand when truthy, otherwise the right one. -/
def jsOr (a b : JSValue) : JSValue := if a.truthy then a else b

/-- JS `v + 1` for the value shapes representable here.  In the source this is
only applied to the result of `x || 0`, which is never `undefined`, so the
`vUndefined` case (which in JS would give NaN) is unreachable there. -/
def jsPlus1 : JSValue → JSValue
  | .vNum n => .vNum (n + 1)
  | .vStr s => .vStr (s ++ "1")
  | .vBool true => .vNum 2
  | .vBool false => .vNum 1
  | .vNull => .vNum 1
  | .vUndefined => .vUndefined

/-- JS `key.includes(pattern)`: plain substring containment. -/
def jsIncludes (s pat : String) : Bool := decide (pat.toList <:+: s.toList)

/-- Modelled from the spec: a cache entry of the bounded expiring map, a stored
value together with its absolute expiry time. -/
structure CEntry where
  value : JSValue
  expiresAt : Nat
deriving DecidableEq, Repr

/-- First-match lookup in an association list of entries. -/
def lookupE : List (String × CEntry) → String → Option CEntry
  | [], _ => none
  | e :: es, k => if e.1 = k then some e.2 else lookupE es k

/-- Replace the value bound to `k` everywhere it occurs. -/
def replaceE (es : List (String × CEntry)) (k : String) (e : CEntry) :
    List (String × CEntry) :=
  es.map (fun p => if p.1 = k then (k, e) else p)

/-- Modelled from the spec: the bounded expiring map primitive (the node-cache
instance each namespace owns; the library source is not part of the
repository).  It stores entries keyed by string with a default TTL, a capacity
bound and a periodic sweep whose running state is recorded in `sweepActive`. -/
structure ExpiringMap where
  entries : List (String × CEntry)
  defaultTTL : Nat
  maxEntries : Nat
  sweepInterval : Nat
  sweepActive : Bool
deriving DecidableEq, Repr

/-- Whether a key currently has an entry. -/
def ExpiringMap.containsKey (m : ExpiringMap) (k : String) : Bool :=
  (lookupE m.entries k).isSome

/-- Modelled from the spec: snapshot of all keys, used for pattern
invalidation. -/
def ExpiringMap.keys (m : ExpiringMap) : List String := m.entries.map Prod.fst

/-- Modelled from the spec: insert or replace an entry with expiry
`now + (ttl or defaultTTL)`; inserting a brand-new key when the map already
holds `maxEntries` entries fails (returns `false`) and leaves the map
unchanged. -/
def ExpiringMap.set (m : ExpiringMap) (k : String) (v : JSValue)
    (ttl : Option Nat) (now : Nat) : Bool × ExpiringMap :=
  let entry : CEntry := ⟨v, now + ttl.getD m.defaultTTL⟩
  if m.containsKey k then
    (true, { m with entries := replaceE m.entries k entry })
  else if m.entries.length = m.maxEntries then
    (false, m)
  else
    (true, { m with entries := m.entries ++ [(k, entry)] })

/-- Modelled from the spec: lookup with lazy expiry.  A missing key is absent;
a present entry whose expiry has been reached is physically removed and
reported absent; otherwise the stored value is returned with a presence
flag. -/
def ExpiringMap.get (m : ExpiringMap) (k : String) (now : Nat) :
    Option JSValue × ExpiringMap :=
  match lookupE m.entries k with
  | none => (none, m)
  | some e =>
    if e.expiresAt ≤ now then
      (none, { m with entries := m.entries.filter (fun p => p.1 != k) })
    else
      (some e.value, m)

/-- Modelled from the spec: delete a key, returning the number of removed
entries (0 or 1). -/
def ExpiringMap.del (m : ExpiringMap) (k : String) : Nat × ExpiringMap :=
  if m.containsKey k then
    (1, { m with entries := m.entries.filter (fun p => p.1 != k) })
  else
    (0, m)

/-- Modelled from the spec: remove every entry. -/
def ExpiringMap.flushAll (m : ExpiringMap) : ExpiringMap :=
  { m with entries := [] }

/-- Modelled from the spec: shutdown of one map, stopping its sweep timer and
releasing all entries. -/
def ExpiringMap.close (m : ExpiringMap) : ExpiringMap :=
  { m with entries := [], sweepActive := false }

/-- Per-namespace statistics counters (`this.hitStats[cacheType]`,
cache.js lines 105-116). -/
structure HitStats where
  hits : Nat
  misses : Nat
  sets : Nat
  deletes : Nat
  flushes : Nat
deriving DecidableEq, Repr

/-- The five counter kinds a `recordHit` call can bump. -/
inductive StatField where
  | hits
  | misses
  | sets
  | deletes
  | flushes
deriving DecidableEq, Repr

/-- Increment one counter of a statistics record. -/
def HitStats.bump (s : HitStats) : StatField → HitStats
  | .hits => { s with hits := s.hits + 1 }
  | .misses => { s with misses := s.misses + 1 }
  | .sets => { s with sets := s.sets + 1 }
  | .deletes => { s with deletes := s.deletes + 1 }
  | .flushes => { s with flushes := s.flushes + 1 }

/-- The eight namespaces fixed by the constructor (cache.js lines 7-71). -/
inductive NsId where
  | players
  | leaderboards
  | statistics
  | achievements
  | sessions
  | api
  | blockchain
  | rateLimit
deriving DecidableEq, Repr

/-- The namespace names accepted by `this.caches[cacheType]`. -/
def validNamespaces : List String :=
  ["players", "leaderboards", "statistics", "achievements", "sessions",
   "api", "blockchain", "rateLimit"]

/-- Resolution of a namespace name to the cache stored under that own key of
the `this.caches` object literal; `none` for every other name.  Note that the
JS bracket lookup `this.caches[cacheType]` does not return `undefined` for
every such name: inherited `Object.prototype` property names yield a truthy
non-cache value, which `cachesLookup` models. -/
def nsIndex (ns : String) : Option NsId :=
  if ns = "players" then some .players
  else if ns = "leaderboards" then some .leaderboards
  else if ns = "statistics" then some .statistics
  else if ns = "achievements" then some .achievements
  else if ns = "sessions" then some .sessions
  else if ns = "api" then some .api
  else if ns = "blockchain" then some .blockchain
  else if ns = "rateLimit" then some .rateLimit
  else none

/-- The cache manager state: one expiring map and one statistics record per
namespace (cache.js lines 4-76). -/
structure CacheManager where
  players : ExpiringMap
  leaderboards : ExpiringMap
  statistics : ExpiringMap
  achievements : ExpiringMap
  sessions : ExpiringMap
  api : ExpiringMap
  blockchain : ExpiringMap
  rateLimit : ExpiringMap
  hsPlayers : HitStats
  hsLeaderboards : HitStats
  hsStatistics : HitStats
  hsAchievements : HitStats
  hsSessions : HitStats
  hsApi : HitStats
  hsBlockchain : HitStats
  hsRateLimit : HitStats
deriving DecidableEq, Repr

/-- `this.caches[cacheType]` for a resolved namespace. -/
def CacheManager.cacheAt (c : CacheManager) : NsId → ExpiringMap
  | .players => c.players
  | .leaderboards => c.leaderboards
  | .statistics => c.statistics
  | .achievements => c.achievements
  | .sessions => c.sessions
  | .api => c.api
  | .blockchain => c.blockchain
  | .rateLimit => c.rateLimit

/-- Write back one namespace map (the in-place mutation of
`this.caches[cacheType]`). -/
def CacheManager.setCacheAt (c : CacheManager) (i : NsId) (m : ExpiringMap) :
    CacheManager :=
  match i with
  | .players => { c with players := m }
  | .leaderboards => { c with leaderboards := m }
  | .statistics => { c with statistics := m }
  | .achievements => { c with achievements := m }
  | .sessions => { c with sessions := m }
  | .api => { c with api := m }
  | .blockchain => { c with blockchain := m }
  | .rateLimit => { c with rateLimit := m }

/-- `this.hitStats[cacheType]` for a resolved namespace. -/
def CacheManager.hitStatsAt (c : CacheManager) : NsId → HitStats
  | .players => c.hsPlayers
  | .leaderboards => c.hsLeaderboards
  | .statistics => c.hsStatistics
  | .achievements => c.hsAchievements
  | .sessions => c.hsSessions
  | .api => c.hsApi
  | .blockchain => c.hsBlockchain
  | .rateLimit => c.hsRateLimit

/-- Write back one namespace statistics record. -/
def CacheManager.setHitStatsAt (c : CacheManager) (i : NsId) (s : HitStats) :
    CacheManager :=
  match i with
  | .players => { c with hsPlayers := s }
  | .leaderboards => { c with hsLeaderboards := s }
  | .statistics => { c with hsStatistics := s }
  | .achievements => { c with hsAchievements := s }
  | .sessions => { c with hsSessions := s }
  | .api => { c with hsApi := s }
  | .blockchain => { c with hsBlockchain := s }
  | .rateLimit => { c with hsRateLimit := s }

/-- `recordHit` (cache.js lines 118-122): bump one counter of one namespace,
a no-op when the namespace has no statistics record. -/
def CacheManager.recordHit (c : CacheManager) (ns : String) (f : StatField) :
    CacheManager :=
  match nsIndex ns with
  | none => c
  | some i => c.setHitStatsAt i ((c.hitStatsAt i).bump f)

/-- JS truthiness of the optional `ttl` argument (`ttl ? ... : ...` in
cache.js line 147: `null`/absent and `0` are falsy). -/
def ttlTruthy : Option Nat → Bool
  | some t => t != 0
  | none => false

/-- `get(cacheType, key)` (cache.js lines 125-139) on the non-throwing paths:
a namespace name whose bracket lookup is falsy returns `null` without touching
any state; on a configured namespace the underlying map is consulted, an
absent result (seen as `undefined`) counts a miss and returns `null`, and a
present value counts a hit and is returned as is.  The full call, including
the TypeError thrown for inherited `Object.prototype` names, is
`CacheManager.getCall`. -/
def CacheManager.get (c : CacheManager) (ns k : String) (now : Nat) :
    JSValue × CacheManager :=
  match nsIndex ns with
  | none => (.vNull, c)
  | some i =>
    let r := (c.cacheAt i).get k now
    let c1 := c.setCacheAt i r.2
    let value := r.1.getD .vUndefined
    if value = .vUndefined then (.vNull, c1.recordHit ns .misses)
    else (value, c1.recordHit ns .hits)

/-- `set(cacheType, key, value, ttl = null)` (cache.js lines 141-156) on the
non-throwing paths: a namespace name whose bracket lookup is falsy returns
`false`; on a configured namespace the underlying map is updated (with the
per-call ttl only when it is truthy) and the `sets` counter is bumped exactly
when the underlying set succeeded.  The full call is
`CacheManager.setCall`. -/
def CacheManager.set (c : CacheManager) (ns k : String) (v : JSValue)
    (ttl : Option Nat) (now : Nat) : Bool × CacheManager :=
  match nsIndex ns with
  | none => (false, c)
  | some i =>
    let r := if ttlTruthy ttl then (c.cacheAt i).set k v ttl now
             else (c.cacheAt i).set k v none now
    let c1 := c.setCacheAt i r.2
    (r.1, if r.1 then c1.recordHit ns .sets else c1)

/-- `del(cacheType, key)` (cache.js lines 158-170) on the non-throwing paths:
a namespace name whose bracket lookup is falsy returns 0; on a configured
namespace the underlying delete count is returned and the `deletes` counter is
bumped exactly when something was removed.  The full call is
`CacheManager.delCall`. -/
def CacheManager.del (c : CacheManager) (ns k : String) : Nat × CacheManager :=
  match nsIndex ns with
  | none => (0, c)
  | some i =>
    let r := (c.cacheAt i).del k
    let c1 := c.setCacheAt i r.2
    (r.1, if 0 < r.1 then c1.recordHit ns .deletes else c1)

/-- The own property names of `Object.prototype`, inherited by the plain
object literal `this.caches`.  For each of these names the JS bracket lookup
`this.caches[name]` yields a truthy value (a function, or for `__proto__` the
prototype object itself) that is not a cache instance. -/
def protoKeys : List String :=
  ["constructor", "hasOwnProperty", "isPrototypeOf", "propertyIsEnumerable",
   "toLocaleString", "toString", "valueOf", "__proto__", "__defineGetter__",
   "__defineSetter__", "__lookupGetter__", "__lookupSetter__"]

/-- The JS exception the cache operations can raise. -/
inductive JsError where
  | typeError
deriving DecidableEq, Repr

/-- Result of evaluating `this.caches[cacheType]`: a cache stored under an own
key of the literal, a truthy inherited `Object.prototype` property that is not
a cache, or `undefined` (falsy) for every other name. -/
inductive CachesLookup where
  | cache (i : NsId)
  | inherited
  | absent
deriving DecidableEq, Repr

/-- The bracket lookup `this.caches[cacheType]` with prototype-chain
semantics. -/
def cachesLookup (ns : String) : CachesLookup :=
  match nsIndex ns with
  | some i => .cache i
  | none => if protoKeys.contains ns then .inherited else .absent

/-- The full call `get(cacheType, key)` (cache.js lines 125-139): the guard
`!this.caches[cacheType]` only rejects a falsy lookup, so when the name is an
inherited `Object.prototype` property the code proceeds and
`this.caches[cacheType].get(key)` throws a TypeError (the truthy inherited
value has no callable `get`); otherwise the call is the non-throwing
`CacheManager.get`. -/
def CacheManager.getCall (c : CacheManager) (ns k : String) (now : Nat) :
    Except JsError (JSValue × CacheManager) :=
  match cachesLookup ns with
  | .absent => .ok (.vNull, c)
  | .inherited => .error .typeError
  | .cache _ => .ok (c.get ns k now)

/-- The full call `set(cacheType, key, value, ttl)` (cache.js lines 141-156),
throwing a TypeError for inherited `Object.prototype` names exactly as
`CacheManager.getCall` does. -/
def CacheManager.setCall (c : CacheManager) (ns k : String) (v : JSValue)
    (ttl : Option Nat) (now : Nat) :
    Except JsError (Bool × CacheManager) :=
  match cachesLookup ns with
  | .absent => .ok (false, c)
  | .inherited => .error .typeError
  | .cache _ => .ok (c.set ns k v ttl now)

/-- The full call `del(cacheType, key)` (cache.js lines 158-170), throwing a
TypeError for inherited `Object.prototype` names exactly as
`CacheManager.getCall` does. -/
def CacheManager.delCall (c : CacheManager) (ns k : String) :
    Except JsError (Nat × CacheManager) :=
  match cachesLookup ns with
  | .absent => .ok (0, c)
  | .inherited => .error .typeError
  | .cache _ => .ok (c.del ns k)

/-- `getRateLimit(identifier)` (cache.js lines 249-251). -/
def CacheManager.getRateLimit (c : CacheManager) (id : String) (now : Nat) :
    JSValue × CacheManager :=
  c.get "rateLimit" ("rate:" ++ id) now

/-- `setRateLimit(identifier, count, ttl = null)` (cache.js lines 253-255). -/
def CacheManager.setRateLimit (c : CacheManager) (id : String) (v : JSValue)
    (ttl : Option Nat) (now : Nat) : Bool × CacheManager :=
  c.set "rateLimit" ("rate:" ++ id) v ttl now

/-- `incrementRateLimit(identifier, ttl = 3600)` (cache.js lines 257-260):
`const current = this.getRateLimit(identifier) || 0;
 return this.setRateLimit(identifier, current + 1, ttl);`
Note that the returned value is the boolean result of `setRateLimit`, not the
new count. -/
def CacheManager.incrementRateLimit (c : CacheManager) (id : String)
    (ttl : Nat) (now : Nat) : Bool × CacheManager :=
  let r := c.getRateLimit id now
  r.2.setRateLimit id (jsPlus1 (jsOr r.1 (.vNum 0))) (some ttl) now

/-- `invalidatePattern(cacheType, pattern)` (cache.js lines 263-276): list the
keys of the namespace, keep those containing `pattern` as a plain substring,
and delete each of them directly on the underlying map (bypassing `del`, so no
statistics counter is touched). -/
def CacheManager.invalidatePattern (c : CacheManager) (ns pat : String) :
    CacheManager :=
  match nsIndex ns with
  | none => c
  | some i =>
    let ks := (c.cacheAt i).keys
    let matching := ks.filter (fun k => jsIncludes k pat)
    c.setCacheAt i (matching.foldl (fun mm k => (mm.del k).2) (c.cacheAt i))

/-- Two-decimal percentage string for `hits / (hits + misses) * 100`, an exact
rational model of the JS double expression with `toFixed(2)` rounding (round
half up).  It agrees with the JS computation at every input where the double
arithmetic is exact, in particular at 3 hits and 1 miss where the value is
exactly 75. -/
def toFixed2Pct (hits misses : Nat) : String :=
  let d := hits + misses
  let scaled := (hits * 10000 * 2 + d) / (2 * d)
  toString (scaled / 100) ++ "." ++
    (if scaled % 100 < 10 then "0" else "") ++ toString (scaled % 100) ++ "%"

/-- The hit-rate string of `getStats()` (cache.js lines 308-310): the guard is
`hits > 0`, and the `0%` branch is taken for every record with zero hits. -/
def hitRateStr (s : HitStats) : String :=
  if 0 < s.hits then toFixed2Pct s.hits s.misses else "0%"

/-- Follows the words of the spec for the hit rate of `getStats()`:
`hits / (hits + misses)` formatted as a percentage (two-decimal format, as the
75.00% anchor of the spec shows), defined as `0%` when `hits + misses = 0`.
Stated only to compare against `hitRateStr`, which is translated from the
source. -/
def specHitRate (s : HitStats) : String :=
  if s.hits + s.misses = 0 then "0%" else toFixed2Pct s.hits s.misses

/-- One namespace record of the `getStats()` report (cache.js lines 299-315):
live key count, the raw counters, and the formatted hit rate.  The opaque
library-internal statistics object is not modelled. -/
structure NsStats where
  keyCount : Nat
  hitStats : HitStats
  hitRate : String
deriving DecidableEq, Repr

/-- `getStats()` restricted to one namespace (the loop body of cache.js
lines 302-312). -/
def CacheManager.getStats (c : CacheManager) (i : NsId) : NsStats :=
  ⟨(c.cacheAt i).keys.length, c.hitStatsAt i, hitRateStr (c.hitStatsAt i)⟩

/-- `shutdown()` (cache.js lines 359-364): close every namespace map. -/
def CacheManager.shutdown (c : CacheManager) : CacheManager :=
  { c with
    players := c.players.close
    leaderboards := c.leaderboards.close
    statistics := c.statistics.close
    achievements := c.achievements.close
    sessions := c.sessions.close
    api := c.api.close
    blockchain := c.blockchain.close
    rateLimit := c.rateLimit.close }

/-- A fresh namespace map with the given default TTL, capacity and sweep
period. -/
def mkMap (ttl maxE sweep : Nat) : ExpiringMap :=
  { entries := [], defaultTTL := ttl, maxEntries := maxE,
    sweepInterval := sweep, sweepActive := true }

/-- Zeroed statistics counters. -/
def emptyStats : HitStats := ⟨0, 0, 0, 0, 0⟩

/-- The exported singleton in its freshly constructed state, with the TTL,
capacity and sweep-period configuration of cache.js lines 7-71. -/
def cacheManager : CacheManager :=
  { players := mkMap 300 10000 60
    leaderboards := mkMap 600 100 120
    statistics := mkMap 900 200 180
    achievements := mkMap 1800 1000 300
    sessions := mkMap 180 5000 30
    api := mkMap 120 2000 30
    blockchain := mkMap 1200 500 240
    rateLimit := mkMap 3600 50000 600
    hsPlayers := emptyStats
    hsLeaderboards := emptyStats
    hsStatistics := emptyStats
    hsAchievements := emptyStats
    hsSessions := emptyStats
    hsApi := emptyStats
    hsBlockchain := emptyStats
    hsRateLimit := emptyStats }

/-- The effective TTL a wrapper-level `set` gives an entry: the per-call ttl
when it is truthy, otherwise the default TTL of the map. -/
def ExpiringMap.effTTL (m : ExpiringMap) (ttl : Option Nat) : Nat :=
  if ttlTruthy ttl then ttl.getD m.defaultTTL else m.defaultTTL

/-- The namespace configuration is the one fixed at construction: each map
keeps the default TTL the constructor gave it. -/
def ConfigOK (c : CacheManager) : Prop :=
  c.players.defaultTTL = 300 ∧ c.leaderboards.defaultTTL = 600 ∧
  c.statistics.defaultTTL = 900 ∧ c.achievements.defaultTTL = 1800 ∧
  c.sessions.defaultTTL = 180 ∧ c.api.defaultTTL = 120 ∧
  c.blockchain.defaultTTL = 1200 ∧ c.rateLimit.defaultTTL = 3600

/-- A manager state whose `leaderboards` namespace is filled to its capacity
bound of 100 entries, reached from the freshly constructed state by 100
successful inserts of distinct keys. -/
def fullLB : CacheManager :=
  (List.range 100).foldl
    (fun c i => (c.set "leaderboards" ("k" ++ toString i) (.vNum i) none 0).2)
    cacheManager

/-- One `incrementRateLimit` call on the fresh state. -/
def rlOnce : Bool × CacheManager := cacheManager.incrementRateLimit "x" 3600 0

/-- A second `incrementRateLimit` call on the same identifier. -/
def rlTwice : Bool × CacheManager := rlOnce.2.incrementRateLimit "x" 3600 0

/-- The fresh state after a single miss on the `players` namespace. -/
def oneMissState : CacheManager := (cacheManager.get "players" "nope" 0).2

/-- The fresh state after one set, three hits and one miss on the `players`
namespace. -/
def threeHitsOneMiss : CacheManager :=
  ((((((cacheManager.set "players" "k" (.vNum 1) none 0).2.get
      "players" "k" 0).2.get "players" "k" 0).2.get "players" "k" 0).2.get
      "players" "missing" 0).2)

/-- A `players` namespace populated with one key containing `wallet123` and
one key not containing it. -/
def patState : CacheManager :=
  ((cacheManager.set "players" "player:wallet123" (.vNum 1) none 0).2.set
    "players" "player:wallet999" (.vNum 2) none 0).2

/-! Basic lemmas about the association-list operations of the expiring map. -/

theorem lookupE_append_of_none (es : List (String × CEntry)) (k : String)
    (e : CEntry) (h : lookupE es k = none) :
    lookupE (es ++ [(k, e)]) k = some e := by
  induction es with
  | nil => simp [lookupE]
  | cons a es ih =>
    by_cases hak : a.1 = k
    · simp [lookupE, hak] at h
    · simp only [List.cons_append, lookupE, hak, if_false] at h ⊢
      exact ih h

theorem lookupE_replaceE (es : List (String × CEntry)) (k : String) (e : CEntry)
    (h : (lookupE es k).isSome) :
    lookupE (replaceE es k e) k = some e := by
  induction es with
  | nil => simp [lookupE] at h
  | cons a es ih =>
    by_cases hak : a.1 = k
    · simp [replaceE, lookupE, hak]
    · simp only [lookupE, hak, if_false] at h
      simp only [replaceE, List.map_cons, if_neg hak]
      simp only [lookupE, hak, if_false]
      exact ih h

theorem lookupE_filter_keep (es : List (String × CEntry)) (k : String)
    (p : String → Bool) (hp : p k = true) :
    lookupE (es.filter (fun e => p e.1)) k = lookupE es k := by
  induction es with
  | nil => rfl
  | cons a es ih =>
    by_cases hak : a.1 = k
    · have : p a.1 = true := by rw [hak]; exact hp
      simp [List.filter_cons, this, hp, lookupE, hak, ih]
    · cases hpa : p a.1 with
      | true => simp [List.filter_cons, hpa, lookupE, hak, ih]
      | false => simp [List.filter_cons, hpa, lookupE, hak, ih]

theorem lookupE_filter_drop (es : List (String × CEntry)) (k : String)
    (p : String → Bool) (hp : p k = false) :
    lookupE (es.filter (fun e => p e.1)) k = none := by
  induction es with
  | nil => rfl
  | cons a es ih =>
    cases hpa : p a.1 with
    | false => simp [List.filter_cons, hpa, ih]
    | true =>
      have hak : a.1 ≠ k := by
        intro hh
        rw [hh, hp] at hpa
        exact Bool.false_ne_true hpa
      simp [List.filter_cons, hpa, lookupE, hak, ih]

theorem filter_ne_of_lookup_none (es : List (String × CEntry)) (k : String)
    (h : lookupE es k = none) :
    es.filter (fun p => p.1 != k) = es := by
  induction es with
  | nil => rfl
  | cons a es ih =>
    by_cases hak : a.1 = k
    · simp [lookupE, hak] at h
    · simp only [lookupE, hak, if_false] at h
      have hb : (a.1 != k) = true := by simp [bne, hak]
      rw [List.filter_cons, if_pos hb, ih h]

/-! Lemmas about the expiring-map operations. -/

theorem em_set_lookup (m : ExpiringMap) (k : String) (v : JSValue)
    (ttl : Option Nat) (now : Nat) (h : (m.set k v ttl now).1 = true) :
    lookupE (m.set k v ttl now).2.entries k
      = some ⟨v, now + ttl.getD m.defaultTTL⟩ := by
  unfold ExpiringMap.set at h ⊢
  cases hck : m.containsKey k with
  | true =>
    simp only [hck, if_true]
    exact lookupE_replaceE _ _ _ hck
  | false =>
    by_cases hlen : m.entries.length = m.maxEntries
    · simp [hck, hlen] at h
    · have hnone : lookupE m.entries k = none := by
        have := hck
        unfold ExpiringMap.containsKey at this
        exact Option.not_isSome_iff_eq_none.mp (by simp [this])
      simp only [hck, Bool.false_eq_true, if_false, hlen, if_neg hlen]
      exact lookupE_append_of_none _ _ _ hnone

theorem em_get_of_lookup_fresh (m : ExpiringMap) (k : String) (now : Nat)
    (v : JSValue) (t : Nat) (h : lookupE m.entries k = some ⟨v, t⟩)
    (ht : now < t) :
    (m.get k now).1 = some v := by
  unfold ExpiringMap.get
  rw [h]
  simp [Nat.not_le.mpr ht]

theorem em_set_get (m : ExpiringMap) (k : String) (v : JSValue)
    (ttl : Option Nat) (now : Nat) (h : (m.set k v ttl now).1 = true)
    (heff : 0 < ttl.getD m.defaultTTL) :
    ((m.set k v ttl now).2.get k now).1 = some v := by
  have hl := em_set_lookup m k v ttl now h
  exact em_get_of_lookup_fresh _ _ _ _ _ hl (by omega)

theorem em_get_none (m : ExpiringMap) (k : String) (now : Nat)
    (h : lookupE m.entries k = none) :
    (m.get k now).1 = none := by
  unfold ExpiringMap.get
  rw [h]

theorem em_get_fst_congr (m1 m2 : ExpiringMap) (k : String) (now : Nat)
    (h : lookupE m1.entries k = lookupE m2.entries k) :
    (m1.get k now).1 = (m2.get k now).1 := by
  unfold ExpiringMap.get
  rw [h]
  cases lookupE m2.entries k with
  | none => rfl
  | some e =>
    dsimp only
    split <;> rfl

theorem del_entries (m : ExpiringMap) (k : String) :
    (m.del k).2.entries = m.entries.filter (fun p => p.1 != k) := by
  unfold ExpiringMap.del
  cases hck : m.containsKey k with
  | true => simp [hck]
  | false =>
    have hnone : lookupE m.entries k = none := by
      have := hck
      unfold ExpiringMap.containsKey at this
      exact Option.not_isSome_iff_eq_none.mp (by simp [this])
    simp [hck, filter_ne_of_lookup_none _ _ hnone]

theorem del_fields (m : ExpiringMap) (k : String) :
    (m.del k).2.defaultTTL = m.defaultTTL ∧
    (m.del k).2.maxEntries = m.maxEntries ∧
    (m.del k).2.sweepInterval = m.sweepInterval ∧
    (m.del k).2.sweepActive = m.sweepActive := by
  unfold ExpiringMap.del
  split <;> exact ⟨rfl, rfl, rfl, rfl⟩

theorem foldl_del_entries (L : List String) (m : ExpiringMap) :
    (L.foldl (fun mm k => (mm.del k).2) m).entries
      = m.entries.filter (fun e => !(L.contains e.1)) := by
  induction L generalizing m with
  | nil => simp
  | cons k L ih =>
    rw [List.foldl_cons, ih, del_entries, List.filter_filter]
    have hfun : (fun (e : String × CEntry) => !(L.contains e.1) && (e.1 != k))
        = fun e => !((k :: L).contains e.1) := by
      funext e
      simp only [List.contains_cons, Bool.not_or, Bool.and_comm, bne,
        beq_eq_decide]
    rw [hfun]

/-! Routing lemmas: reading and writing one namespace of the manager. -/

theorem cacheAt_setCacheAt_self (c : CacheManager) (i : NsId) (m : ExpiringMap) :
    (c.setCacheAt i m).cacheAt i = m := by
  cases i <;> rfl

theorem setCacheAt_self (c : CacheManager) (i : NsId) :
    c.setCacheAt i (c.cacheAt i) = c := by
  cases i <;> rfl

theorem cacheAt_setHitStatsAt (c : CacheManager) (j : NsId) (s : HitStats)
    (i : NsId) : (c.setHitStatsAt j s).cacheAt i = c.cacheAt i := by
  cases j <;> cases i <;> rfl

theorem hitStatsAt_setCacheAt (c : CacheManager) (j : NsId) (m : ExpiringMap)
    (i : NsId) : (c.setCacheAt j m).hitStatsAt i = c.hitStatsAt i := by
  cases j <;> cases i <;> rfl

theorem cacheAt_recordHit (c : CacheManager) (ns : String) (f : StatField)
    (i : NsId) : (c.recordHit ns f).cacheAt i = c.cacheAt i := by
  unfold CacheManager.recordHit
  cases nsIndex ns with
  | none => rfl
  | some j => exact cacheAt_setHitStatsAt c j _ i

theorem nsIndex_eq_none (ns : String) (h : ns ∉ validNamespaces) :
    nsIndex ns = none := by
  simp only [validNamespaces, List.mem_cons, List.not_mem_nil, or_false,
    not_or] at h
  obtain ⟨h1, h2, h3, h4, h5, h6, h7, h8⟩ := h
  simp [nsIndex, h1, h2, h3, h4, h5, h6, h7, h8]

/-! Wrapper-level lemmas about `get` and `set`. -/

theorem manager_get_hit (c : CacheManager) (ns k : String) (now : Nat)
    (i : NsId) (v : JSValue) (hns : nsIndex ns = some i)
    (hem : ((c.cacheAt i).get k now).1 = some v) (hv : v ≠ .vUndefined) :
    (c.get ns k now).1 = v := by
  simp only [CacheManager.get, hns]
  simp [hem, hv]

theorem manager_get_miss (c : CacheManager) (ns k : String) (now : Nat)
    (i : NsId) (hns : nsIndex ns = some i)
    (hem : ((c.cacheAt i).get k now).1 = none) :
    (c.get ns k now).1 = .vNull := by
  simp only [CacheManager.get, hns]
  simp [hem]

theorem manager_get_fst_congr (c1 c2 : CacheManager) (ns k : String)
    (now : Nat) (i : NsId) (hns : nsIndex ns = some i)
    (h : ((c1.cacheAt i).get k now).1 = ((c2.cacheAt i).get k now).1) :
    (c1.get ns k now).1 = (c2.get ns k now).1 := by
  simp only [CacheManager.get, hns, h]
  split <;> rfl

theorem manager_set_get (c : CacheManager) (ns k : String) (v : JSValue)
    (ttl : Option Nat) (now : Nat) (i : NsId)
    (hns : nsIndex ns = some i)
    (heff : 0 < (c.cacheAt i).effTTL ttl)
    (hv : v ≠ .vUndefined)
    (hsucc : (c.set ns k v ttl now).1 = true) :
    ((c.set ns k v ttl now).2.get ns k now).1 = v := by
  unfold ExpiringMap.effTTL at heff
  simp only [CacheManager.set, hns] at hsucc ⊢
  cases htt : ttlTruthy ttl with
  | true =>
    simp only [htt, if_true] at hsucc ⊢
    have hget := em_set_get (c.cacheAt i) k v ttl now hsucc
      (by simpa [htt] using heff)
    apply manager_get_hit _ ns k now i v hns ?_ hv
    rw [hsucc]
    simp only [if_true]
    rw [cacheAt_recordHit, cacheAt_setCacheAt_self]
    exact hget
  | false =>
    simp only [htt, Bool.false_eq_true, if_false] at hsucc ⊢
    have hget := em_set_get (c.cacheAt i) k v none now hsucc
      (by simpa [htt] using heff)
    apply manager_get_hit _ ns k now i v hns ?_ hv
    rw [hsucc]
    simp only [if_true]
    rw [cacheAt_recordHit, cacheAt_setCacheAt_self]
    exact hget

/-! Claim theorems. -/

set_option maxRecDepth 1000000 in
/-- C1 counterexample.  The claim quantifies over every valid namespace, key,
value and ttl, with no condition on the state of the namespace.  On a
`leaderboards` namespace already holding its configured maximum of 100
entries, `set` of a brand-new key fails, and the immediate `get` returns the
`null` miss sentinel rather than the value that was passed to `set`. -/
theorem claim1_counterexample :
    ((fullLB.set "leaderboards" "newkey" (.vNum 7) none 0).2.get
        "leaderboards" "newkey" 0).1 = .vNull ∧
    JSValue.vNull ≠ .vNum 7 := by
  decide

/-- C1 (amended): for every valid namespace, key, value and ttl, on a manager
carrying the constructed namespace configuration, if the `set` call succeeds
(returns `true`) and the value is not the JS `undefined`, then an immediate
`get` returns exactly the value that was set. -/
theorem claim1_set_get_roundtrip (c : CacheManager) (ns k : String)
    (v : JSValue) (ttl : Option Nat) (now : Nat) (i : NsId)
    (hns : nsIndex ns = some i) (hcfg : ConfigOK c) (hv : v ≠ .vUndefined)
    (hsucc : (c.set ns k v ttl now).1 = true) :
    ((c.set ns k v ttl now).2.get ns k now).1 = v := by
  apply manager_set_get c ns k v ttl now i hns ?_ hv hsucc
  obtain ⟨h1, h2, h3, h4, h5, h6, h7, h8⟩ := hcfg
  unfold ExpiringMap.effTTL
  cases htt : ttlTruthy ttl with
  | false =>
    simp only [htt, Bool.false_eq_true, if_false]
    cases i <;>
      simp [CacheManager.cacheAt, h1, h2, h3, h4, h5, h6, h7, h8]
  | true =>
    simp only [htt, if_true]
    cases ttl with
    | none => simp [ttlTruthy] at htt
    | some t =>
      simp only [ttlTruthy, bne_iff_ne, ne_eq, decide_eq_true_eq] at htt
      simp [Option.getD]
      omega

/-- C1 witness: a successful set of 42 on the fresh state reads back as 42. -/
theorem claim1_witness :
    (cacheManager.set "players" "w" (.vNum 42) none 0).1 = true ∧
    ((cacheManager.set "players" "w" (.vNum 42) none 0).2.get
        "players" "w" 0).1 = .vNum 42 := by
  have hs : (cacheManager.set "players" "w" (.vNum 42) none 0).1 = true := by
    decide
  exact ⟨hs, claim1_set_get_roundtrip cacheManager "players" "w" (.vNum 42)
    none 0 .players rfl ⟨rfl, rfl, rfl, rfl, rfl, rfl, rfl, rfl⟩
    (by decide) hs⟩

/-- C2: a `set` of a brand-new key on a namespace whose entry count equals its
capacity bound returns `false` and leaves the whole manager state unchanged,
so every previously inserted key remains retrievable; the operation is a total
function and raises nothing. -/
theorem claim2_capacity_reject (c : CacheManager) (ns k : String)
    (v : JSValue) (ttl : Option Nat) (now : Nat) (i : NsId)
    (hns : nsIndex ns = some i)
    (hnew : (c.cacheAt i).containsKey k = false)
    (hfull : (c.cacheAt i).entries.length = (c.cacheAt i).maxEntries) :
    c.set ns k v ttl now = (false, c) := by
  have hem : ∀ t, (c.cacheAt i).set k v t now = (false, c.cacheAt i) := by
    intro t
    unfold ExpiringMap.set
    simp [hnew, hfull]
  simp only [CacheManager.set, hns, hem]
  simp [setCacheAt_self c i]

set_option maxRecDepth 1000000 in
/-- C2 witness: on the 100-entry-full `leaderboards` namespace, setting the
brand-new key fails with `false` and the state is untouched. -/
theorem claim2_witness :
    fullLB.leaderboards.containsKey "newkey" = false ∧
    fullLB.leaderboards.entries.length = fullLB.leaderboards.maxEntries ∧
    fullLB.set "leaderboards" "newkey" (.vNum 7) none 0 = (false, fullLB) := by
  have h1 : fullLB.leaderboards.containsKey "newkey" = false := by decide
  have h2 : fullLB.leaderboards.entries.length
      = fullLB.leaderboards.maxEntries := by decide
  exact ⟨h1, h2, claim2_capacity_reject fullLB "leaderboards" "newkey"
    (.vNum 7) none 0 .leaderboards rfl h1 h2⟩

/-- C3 counterexample.  The claim says the call returns the new count.  The
source returns the result of `setRateLimit`, which is the boolean success of
the underlying `set`: two consecutive calls on the same identifier both return
`true` while the stored count moves from 1 to 2, so the returned value does
not carry the count. -/
theorem claim3_counterexample :
    rlOnce.1 = true ∧ rlTwice.1 = true ∧
    (lookupE rlOnce.2.rateLimit.entries "rate:x").map CEntry.value
      = some (.vNum 1) ∧
    (lookupE rlTwice.2.rateLimit.entries "rate:x").map CEntry.value
      = some (.vNum 2) := by
  decide

/-- C3 (amended): `incrementRateLimit` performs the read-modify-write
`count = (get or 0) + 1` on the `rateLimits` namespace, but its result is the
boolean success flag of the underlying `set`, not the count.  When that flag
is `true` and the coerced previous count was `n`, a subsequent read of the
identifier yields the stored count `n + 1`. -/
theorem claim3_increment_stores (c : CacheManager) (id : String)
    (ttl now : Nat) (n : Int)
    (hprev : jsOr (c.getRateLimit id now).1 (.vNum 0) = .vNum n)
    (httl : ttl ≠ 0)
    (hres : (c.incrementRateLimit id ttl now).1 = true) :
    ((c.incrementRateLimit id ttl now).2.getRateLimit id now).1
      = .vNum (n + 1) := by
  unfold CacheManager.incrementRateLimit at hres ⊢
  dsimp only at hres ⊢
  rw [hprev] at hres ⊢
  unfold CacheManager.setRateLimit at hres ⊢
  unfold CacheManager.getRateLimit
  apply manager_set_get _ "rateLimit" ("rate:" ++ id) (jsPlus1 (.vNum n))
    (some ttl) now .rateLimit rfl ?_ (by simp [jsPlus1]) hres
  unfold ExpiringMap.effTTL ttlTruthy
  have hb : (ttl != 0) = true := by simpa using httl
  simp only [hb, if_true, Option.getD_some]
  omega

/-- C3 witness: on the fresh state the previous count is absent (coerced to
0), the call returns `true`, and the stored count read back is 1. -/
theorem claim3_witness :
    jsOr (cacheManager.getRateLimit "x" 0).1 (.vNum 0) = .vNum 0 ∧
    (cacheManager.incrementRateLimit "x" 3600 0).1 = true ∧
    ((cacheManager.incrementRateLimit "x" 3600 0).2.getRateLimit "x" 0).1
      = .vNum 1 := by
  have h1 : jsOr (cacheManager.getRateLimit "x" 0).1 (.vNum 0) = .vNum 0 := by
    decide
  have h3 : (cacheManager.incrementRateLimit "x" 3600 0).1 = true := by decide
  refine ⟨h1, h3, ?_⟩
  have := claim3_increment_stores cacheManager "x" 3600 0 0 h1 (by decide) h3
  simpa using this

/-- On a configured namespace the full calls never throw and agree with the
non-throwing operations. -/
theorem calls_agree_on_valid (c : CacheManager) (ns k : String) (v : JSValue)
    (ttl : Option Nat) (now : Nat) (i : NsId) (hns : nsIndex ns = some i) :
    c.getCall ns k now = .ok (c.get ns k now) ∧
    c.setCall ns k v ttl now = .ok (c.set ns k v ttl now) ∧
    c.delCall ns k = .ok (c.del ns k) := by
  refine ⟨?_, ?_, ?_⟩ <;>
    simp [CacheManager.getCall, CacheManager.setCall, CacheManager.delCall,
      cachesLookup, hns]

/-- C5 counterexample.  The claim quantifies over every namespace name outside
the fixed configured set and asserts that none of get/set/del throws.  For the
name `constructor`, which is outside that set, the bracket lookup
`this.caches["constructor"]` yields the truthy inherited
`Object.prototype.constructor`, the guard passes, and all three method calls
throw a TypeError instead of returning `null`/`false`/0. -/
theorem claim5_counterexample :
    ("constructor" ∉ validNamespaces) ∧
    cacheManager.getCall "constructor" "k" 0 = .error .typeError ∧
    cacheManager.setCall "constructor" "k" (.vNum 1) none 0
      = .error .typeError ∧
    cacheManager.delCall "constructor" "k" = .error .typeError := by
  exact ⟨by decide, rfl, rfl, rfl⟩

/-- C5 (amended): for every namespace name outside the fixed configured set,
if the name is not an inherited `Object.prototype` property name the bracket
lookup is `undefined`, so `get` returns the absent `null`, `set` returns
`false` and `del` returns 0, each leaving the manager state (all maps and all
counters) exactly as it was and throwing nothing; but for the inherited
`Object.prototype` property names the guard passes and each of the three calls
throws a TypeError (also without modifying any state). -/
theorem claim5_unknown_namespace (c : CacheManager) (ns k : String)
    (v : JSValue) (ttl : Option Nat) (now : Nat)
    (hvalid : ns ∉ validNamespaces) :
    (ns ∉ protoKeys →
      c.getCall ns k now = .ok (.vNull, c) ∧
      c.setCall ns k v ttl now = .ok (false, c) ∧
      c.delCall ns k = .ok (0, c)) ∧
    (ns ∈ protoKeys →
      c.getCall ns k now = .error .typeError ∧
      c.setCall ns k v ttl now = .error .typeError ∧
      c.delCall ns k = .error .typeError) := by
  have hn := nsIndex_eq_none ns hvalid
  constructor
  · intro hp
    refine ⟨?_, ?_, ?_⟩ <;>
      simp [CacheManager.getCall, CacheManager.setCall, CacheManager.delCall,
        cachesLookup, hn, hp]
  · intro hp
    refine ⟨?_, ?_, ?_⟩ <;>
      simp [CacheManager.getCall, CacheManager.setCall, CacheManager.delCall,
        cachesLookup, hn, hp]

/-- C5 witness: the unknown non-inherited name `bogus` is a non-throwing
no-op for all three operations, and the unknown inherited name `toString`
throws. -/
theorem claim5_witness :
    ("bogus" ∉ validNamespaces) ∧ ("bogus" ∉ protoKeys) ∧
    cacheManager.getCall "bogus" "k" 0 = .ok (.vNull, cacheManager) ∧
    cacheManager.setCall "bogus" "k" (.vNum 1) none 0
      = .ok (false, cacheManager) ∧
    cacheManager.delCall "bogus" "k" = .ok (0, cacheManager) ∧
    ("toString" ∉ validNamespaces) ∧ ("toString" ∈ protoKeys) ∧
    cacheManager.getCall "toString" "k" 0 = .error .typeError := by
  have hb1 : ("bogus" : String) ∉ validNamespaces := by decide
  have hb2 : ("bogus" : String) ∉ protoKeys := by decide
  have ht1 : ("toString" : String) ∉ validNamespaces := by decide
  have ht2 : ("toString" : String) ∈ protoKeys := by decide
  obtain ⟨g, s, d⟩ := (claim5_unknown_namespace cacheManager "bogus" "k"
    (.vNum 1) none 0 hb1).1 hb2
  obtain ⟨g2, -, -⟩ := (claim5_unknown_namespace cacheManager "toString" "k"
    (.vNum 1) none 0 ht1).2 ht2
  exact ⟨hb1, hb2, g, s, d, ht1, ht2, g2⟩

/-- C4: for every valid namespace and pattern, `invalidatePattern` removes
exactly the keys containing the pattern as a plain substring: the surviving
entry list is the original one filtered to the keys not containing the
pattern, every key containing the pattern is no longer present, and `get` on
any key not containing the pattern returns the same value as before. -/
theorem claim4_invalidate_exact (c : CacheManager) (ns pat k : String)
    (now : Nat) (i : NsId) (hns : nsIndex ns = some i) :
    ((c.invalidatePattern ns pat).cacheAt i).entries
        = (c.cacheAt i).entries.filter (fun e => !(jsIncludes e.1 pat)) ∧
    (jsIncludes k pat = true →
      lookupE ((c.invalidatePattern ns pat).cacheAt i).entries k = none) ∧
    (jsIncludes k pat = false →
      ((c.invalidatePattern ns pat).get ns k now).1 = (c.get ns k now).1) := by
  have hentries : ((c.invalidatePattern ns pat).cacheAt i).entries
      = (c.cacheAt i).entries.filter (fun e => !(jsIncludes e.1 pat)) := by
    simp only [CacheManager.invalidatePattern, hns]
    rw [cacheAt_setCacheAt_self, foldl_del_entries]
    apply List.filter_congr
    intro e he
    have hcc :
        (((c.cacheAt i).keys.filter (fun kk => jsIncludes kk pat)).contains
          e.1) = jsIncludes e.1 pat := by
      by_cases hmem :
          e.1 ∈ (c.cacheAt i).keys.filter (fun kk => jsIncludes kk pat)
      · have h1 :
            (((c.cacheAt i).keys.filter
              (fun kk => jsIncludes kk pat)).contains e.1) = true := by
          simpa [List.contains] using hmem
        rw [h1, (List.mem_filter.mp hmem).2]
      · have h1 :
            (((c.cacheAt i).keys.filter
              (fun kk => jsIncludes kk pat)).contains e.1) = false := by
          simpa [List.contains] using hmem
        rw [h1]
        cases hinc : jsIncludes e.1 pat with
        | false => rfl
        | true =>
          have hkeys : e.1 ∈ (c.cacheAt i).keys := by
            unfold ExpiringMap.keys
            exact List.mem_map_of_mem Prod.fst he
          exact absurd (List.mem_filter.mpr ⟨hkeys, hinc⟩) hmem
    rw [hcc]
  refine ⟨hentries, ?_, ?_⟩
  · intro hk
    rw [hentries]
    have := lookupE_filter_drop (c.cacheAt i).entries k
      (fun s => !(jsIncludes s pat)) (by simp [hk])
    simpa using this
  · intro hk
    apply manager_get_fst_congr _ _ ns k now i hns
    apply em_get_fst_congr
    rw [hentries]
    have := lookupE_filter_keep (c.cacheAt i).entries k
      (fun s => !(jsIncludes s pat)) (by simp [hk])
    simpa using this

/-- C4 witness: on a `players` namespace holding `player:wallet123` and
`player:wallet999`, invalidating the pattern `wallet123` leaves exactly the
non-matching entries, and the non-matching key reads back unchanged. -/
theorem claim4_witness :
    ((patState.invalidatePattern "players" "wallet123").cacheAt
        .players).entries
      = patState.players.entries.filter
          (fun e => !(jsIncludes e.1 "wallet123")) ∧
    jsIncludes "player:wallet123" "wallet123" = true ∧
    lookupE ((patState.invalidatePattern "players" "wallet123").cacheAt
        .players).entries "player:wallet123" = none ∧
    jsIncludes "player:wallet999" "wallet123" = false ∧
    ((patState.invalidatePattern "players" "wallet123").get "players"
        "player:wallet999" 0).1
      = (patState.get "players" "player:wallet999" 0).1 := by
  have h123 : jsIncludes "player:wallet123" "wallet123" = true := by decide
  have h999 : jsIncludes "player:wallet999" "wallet123" = false := by decide
  obtain ⟨a, b, cc⟩ := claim4_invalidate_exact patState "players" "wallet123"
    "player:wallet123" 0 .players rfl
  obtain ⟨_, _, cc2⟩ := claim4_invalidate_exact patState "players" "wallet123"
    "player:wallet999" 0 .players rfl
  exact ⟨a, h123, b h123, h999, cc2 h999⟩

/-- C6 counterexample.  The claim says the hit rate is
`hits / (hits + misses)` formatted as a percentage, with the `0%` special case
only at `hits + misses = 0`.  The source guards on `hits > 0` instead: after
one miss and no hit the report reads `0%`, whereas the formatted percentage of
`0 / (0 + 1)` in the two-decimal format fixed by the claim is `0.00%`. -/
theorem claim6_counterexample :
    (oneMissState.getStats .players).hitRate = "0%" ∧
    specHitRate (oneMissState.hitStatsAt .players) = "0.00%" ∧
    ("0%" : String) ≠ "0.00%" := by
  decide

/-- C6 (amended): the reported hit rate is the string `0%` whenever the hits
counter is zero (in particular when `hits + misses = 0`), and the two-decimal
percentage of `hits / (hits + misses)` whenever `hits > 0`; after exactly 3
hits and 1 miss the reported rate is `75.00%`, also along the concrete
three-hits-one-miss operation sequence. -/
theorem claim6_hit_rate (c : CacheManager) (i : NsId) :
    ((c.hitStatsAt i).hits = 0 → (c.getStats i).hitRate = "0%") ∧
    (0 < (c.hitStatsAt i).hits →
      (c.getStats i).hitRate
        = toFixed2Pct (c.hitStatsAt i).hits (c.hitStatsAt i).misses) ∧
    ((c.hitStatsAt i).hits = 3 → (c.hitStatsAt i).misses = 1 →
      (c.getStats i).hitRate = "75.00%") ∧
    (threeHitsOneMiss.getStats .players).hitRate = "75.00%" := by
  refine ⟨?_, ?_, ?_, by decide⟩
  · intro h
    simp [CacheManager.getStats, hitRateStr, h]
  · intro h
    simp [CacheManager.getStats, hitRateStr, h]
  · intro h3 hm1
    simp only [CacheManager.getStats, hitRateStr, h3, hm1]
    decide

/-- C6 witness: the three-hits-one-miss state has the counters 3 and 1 and
reports `75.00%`. -/
theorem claim6_witness :
    (threeHitsOneMiss.hitStatsAt .players).hits = 3 ∧
    (threeHitsOneMiss.hitStatsAt .players).misses = 1 ∧
    (threeHitsOneMiss.getStats .players).hitRate = "75.00%" := by
  have h1 : (threeHitsOneMiss.hitStatsAt .players).hits = 3 := by decide
  have h2 : (threeHitsOneMiss.hitStatsAt .players).misses = 1 := by decide
  exact ⟨h1, h2, (claim6_hit_rate threeHitsOneMiss .players).2.2.1 h1 h2⟩

/-- C7 counterexample.  `get` returns the raw value on a hit and the sentinel
`null` on a miss, with no presence flag: reading a stored `null` gives exactly
the same result as reading an absent key. -/
theorem claim7_counterexample :
    ((cacheManager.set "players" "k" .vNull none 0).2.get
        "players" "k" 0).1 = .vNull ∧
    (cacheManager.get "players" "k" 0).1 = .vNull := by
  decide

/-- C7 (amended): a miss returns the sentinel `null`, and a hit returns the
stored value itself, so presence is distinguishable from absence exactly for
stored values other than `null` (and `undefined`, which reads back as a miss);
a legitimately cached `null` is indistinguishable from a miss. -/
theorem claim7_presence (c : CacheManager) (ns k : String) (v : JSValue)
    (ttl : Option Nat) (now : Nat) (i : NsId)
    (hns : nsIndex ns = some i)
    (hmiss : lookupE (c.cacheAt i).entries k = none)
    (heff : 0 < (c.cacheAt i).effTTL ttl)
    (hv : v ≠ .vUndefined) (hvn : v ≠ .vNull)
    (hsucc : (c.set ns k v ttl now).1 = true) :
    (c.get ns k now).1 = .vNull ∧
    ((c.set ns k v ttl now).2.get ns k now).1 = v ∧ v ≠ .vNull := by
  refine ⟨?_, manager_set_get c ns k v ttl now i hns heff hv hsucc, hvn⟩
  exact manager_get_miss c ns k now i hns (em_get_none _ _ _ hmiss)

/-- C7 witness: on the fresh state the key is absent and reads as `null`; a
stored 5 reads back as 5, which differs from the miss sentinel. -/
theorem claim7_witness :
    lookupE cacheManager.players.entries "w" = none ∧
    (cacheManager.get "players" "w" 0).1 = .vNull ∧
    ((cacheManager.set "players" "w" (.vNum 5) none 0).2.get
        "players" "w" 0).1 = .vNum 5 ∧
    JSValue.vNum 5 ≠ .vNull := by
  have h0 : lookupE cacheManager.players.entries "w" = none := by decide
  have hs : (cacheManager.set "players" "w" (.vNum 5) none 0).1 = true := by
    decide
  obtain ⟨a, b, cc⟩ := claim7_presence cacheManager "players" "w" (.vNum 5)
    none 0 .players rfl h0 (by decide) (by decide) (by decide) hs
  exact ⟨h0, a, b, cc⟩

/-- C8: `shutdown` is idempotent, and after it every namespace map is in the
terminal all-released state: no entries and the sweep stopped.  Both calls are
total functions, so the second call cannot error. -/
theorem claim8_shutdown_idempotent (c : CacheManager) :
    c.shutdown.shutdown = c.shutdown ∧
    c.shutdown.players.entries = [] ∧
    c.shutdown.players.sweepActive = false ∧
    c.shutdown.leaderboards.entries = [] ∧
    c.shutdown.leaderboards.sweepActive = false ∧
    c.shutdown.statistics.entries = [] ∧
    c.shutdown.statistics.sweepActive = false ∧
    c.shutdown.achievements.entries = [] ∧
    c.shutdown.achievements.sweepActive = false ∧
    c.shutdown.sessions.entries = [] ∧
    c.shutdown.sessions.sweepActive = false ∧
    c.shutdown.api.entries = [] ∧
    c.shutdown.api.sweepActive = false ∧
    c.shutdown.blockchain.entries = [] ∧
    c.shutdown.blockchain.sweepActive = false ∧
    c.shutdown.rateLimit.entries = [] ∧
    c.shutdown.rateLimit.sweepActive = false :=
  ⟨rfl, rfl, rfl, rfl, rfl, rfl, rfl, rfl, rfl, rfl, rfl, rfl, rfl, rfl, rfl,
    rfl, rfl⟩

/-- C10: `invalidatePattern` leaves every statistics counter of every
namespace unchanged, because it deletes matching keys directly on the
underlying map; by contrast the namespace-qualified `del` on the same state
bumps the `deletes` counter to 1 where `invalidatePattern` leaves it at 0. -/
theorem claim10_stats_frame (c : CacheManager) (ns pat : String) (i : NsId) :
    (c.invalidatePattern ns pat).hitStatsAt i = c.hitStatsAt i ∧
    (((cacheManager.set "players" "k" (.vNum 1) none 0).2.del "players"
        "k").2.hitStatsAt .players).deletes = 1 ∧
    (((cacheManager.set "players" "k" (.vNum 1) none 0).2.invalidatePattern
        "players" "k").hitStatsAt .players).deletes = 0 := by
  refine ⟨?_, by decide, by decide⟩
  unfold CacheManager.invalidatePattern
  cases hj : nsIndex ns with
  | none => rfl
  | some j => exact hitStatsAt_setCacheAt c j _ i
